import Mathlib

/-!
Verification development for the `src` command-line git client.

The definitions below are a shallow embedding of the Rust sources:

* `src/git/remote.rs` — the progress aggregator (`Progress`, `State`,
  `parse_sideband_progress`, the `RemoteCallbacks` closures, `RemoteOpts`,
  `Reply`, and the `Remote::fetch` / `push` / `connect` drivers);
* `src/git/mod.rs` — the `Optional` adapter over `git2` results;
* `src/cmd/checkout.rs` — `try_checkout`;
* `src/cmd/list.rs` — the write-error handling of `_run`.

Machine integers (`usize`) are modelled as `Nat`; the one place where the
64-bit bound of `usize` is observable (`str::parse::<usize>` failing on
overflow inside `parse_sideband_progress`) models the bound explicitly.
The `indicatif::ProgressBar` collaborator is modelled as a record of the
observable widget state touched by the code (`set_length`, `set_position`,
`set_message`, `tick`, `finish_and_clear`).
-/

namespace Src

/-- Per-category progress counters, from `struct Progress` in
`src/git/remote.rs` (fields `total: AtomicUsize`, `current: AtomicUsize`).
The embedding is sequential, so the atomics become plain naturals. -/
structure Progress where
  total : Nat
  current : Nat
deriving DecidableEq

/-- Fresh counters, from `Progress::default()` (both atomics start at 0). -/
def Progress.dflt : Progress := { total := 0, current := 0 }

/-- Observable state of the `indicatif::ProgressBar` collaborator: the fields
the code in `src/git/remote.rs` writes through `set_message`, `set_length`,
`set_position`, `tick` and `finish_and_clear`. `ticks` counts redraw ticks;
`cleared` records whether `finish_and_clear` has run. -/
structure Bar where
  message : String
  length : Nat
  position : Nat
  ticks : Nat
  cleared : Bool
deriving DecidableEq

/-- A fresh spinner, as built by `ProgressBar::new_spinner()` in
`RemoteOpts::default()`: nothing drawn yet, not cleared. -/
def Bar.newSpinner : Bar :=
  { message := "", length := 0, position := 0, ticks := 0, cleared := false }

def Bar.setLength (b : Bar) (n : Nat) : Bar := { b with length := n }

def Bar.setPosition (b : Bar) (n : Nat) : Bar := { b with position := n }

def Bar.setMessage (b : Bar) (m : String) : Bar := { b with message := m }

def Bar.tick (b : Bar) : Bar := { b with ticks := b.ticks + 1 }

def Bar.finishAndClear (b : Bar) : Bar := { b with cleared := true }

/-- The aggregator state, from `struct State` in `src/git/remote.rs`:
the progress bar plus one `Progress` per category. -/
structure State where
  bar : Bar
  pack : Progress
  push : Progress
  count : Progress
  compress : Progress
deriving DecidableEq

/-- `State::new`: all four categories start from `Progress::default()`. -/
def State.new (bar : Bar) : State :=
  { bar := bar, pack := Progress.dflt, push := Progress.dflt,
    count := Progress.dflt, compress := Progress.dflt }

/-- `State::progress`: fold over `[pack, push, count, compress]` accumulating
`total` and `current`, returning `(current, total)`. -/
def State.progress (s : State) : Nat × Nat :=
  let acc := [s.pack, s.push, s.count, s.compress].foldl
    (fun (acc : Nat × Nat) (p : Progress) => (acc.1 + p.total, acc.2 + p.current))
    (0, 0)
  (acc.2, acc.1)

/-- `State::update`: recompute the aggregate, then
`bar.set_length(total); bar.set_position(current); bar.tick()`. -/
def State.update (s : State) : State :=
  let r := s.progress
  { s with bar := ((s.bar.setLength r.2).setPosition r.1).tick }

/-- The four progress categories of `struct State`. -/
inductive Cat where
  | pack
  | push
  | count
  | compress
deriving DecidableEq

/-- Read the counters of one category out of a `State`. -/
def State.cat (s : State) (c : Cat) : Progress :=
  match c with
  | .pack => s.pack
  | .push => s.push
  | .count => s.count
  | .compress => s.compress

/-- The store pattern shared by the three callback closures in
`RemoteOpts::callbacks`: `state.<cat>.current.store(current); state.<cat>.total.store(total)`
— an unconditional replace of the pair of that category with the delivered values. -/
def State.store (s : State) (c : Cat) (current total : Nat) : State :=
  match c with
  | .pack => { s with pack := { total := total, current := current } }
  | .push => { s with push := { total := total, current := current } }
  | .count => { s with count := { total := total, current := current } }
  | .compress => { s with compress := { total := total, current := current } }

/-- Decoding of one byte sequence as UTF-8, mirroring the validation done by
`std::str::from_utf8` in `parse_sideband_progress`: continuation bytes are
`0x80..=0xBF`, overlong encodings, surrogates (`0xED A0..` leads) and
code points above `0x10FFFF` are rejected. Bytes are naturals `< 256`. -/
def utf8Cont (b : Nat) : Bool := 0x80 ≤ b && b ≤ 0xBF

def utf8DecodeGo : Nat → List Nat → Option (List Char)
  | _, [] => some []
  | 0, _ :: _ => none
  | fuel + 1, b :: rest =>
    if b ≤ 0x7F then
      (utf8DecodeGo fuel rest).map (fun cs => Char.ofNat b :: cs)
    else if 0xC2 ≤ b && b ≤ 0xDF then
      match rest with
      | c1 :: rest1 =>
        if utf8Cont c1 then
          (utf8DecodeGo fuel rest1).map (fun cs =>
            Char.ofNat ((b - 0xC0) * 0x40 + (c1 - 0x80)) :: cs)
        else none
      | [] => none
    else if 0xE0 ≤ b && b ≤ 0xEF then
      match rest with
      | c1 :: c2 :: rest2 =>
        if (utf8Cont c1 && utf8Cont c2) &&
            (b ≠ 0xE0 || 0xA0 ≤ c1) && (b ≠ 0xED || c1 ≤ 0x9F) then
          (utf8DecodeGo fuel rest2).map (fun cs =>
            Char.ofNat ((b - 0xE0) * 0x1000 + (c1 - 0x80) * 0x40 + (c2 - 0x80)) :: cs)
        else none
      | _ => none
    else if 0xF0 ≤ b && b ≤ 0xF4 then
      match rest with
      | c1 :: c2 :: c3 :: rest3 =>
        if (utf8Cont c1 && utf8Cont c2 && utf8Cont c3) &&
            (b ≠ 0xF0 || 0x90 ≤ c1) && (b ≠ 0xF4 || c1 ≤ 0x8F) then
          (utf8DecodeGo fuel rest3).map (fun cs =>
            Char.ofNat ((b - 0xF0) * 0x40000 + (c1 - 0x80) * 0x1000 +
              (c2 - 0x80) * 0x40 + (c3 - 0x80)) :: cs)
        else none
      | _ => none
    else none

/-- Decode a byte list as UTF-8. Every character consumes at least one byte,
so `l.length` units of fuel always suffice and `utf8DecodeGo` never hits its
fuel-exhaustion branch when started here. -/
def utf8Decode (l : List Nat) : Option (List Char) := utf8DecodeGo l.length l

/-- Strip an expected literal off the front of the input, returning the
remainder on success. Used to match the fixed parts of the regex
`(Counting|Compressing) objects:[ ]+[0-9]+% \(([0-9]+)\/([0-9]+)\)`. -/
def stripLit : List Char → List Char → Option (List Char)
  | [], cs => some cs
  | _ :: _, [] => none
  | l :: ls, c :: cs => if c = l then stripLit ls cs else none

def isDigitCh (c : Char) : Bool := 0x30 ≤ c.toNat && c.toNat ≤ 0x39

def isSpaceCh (c : Char) : Bool := c.toNat == 0x20

/-- Match the part of the regex after the category alternation, starting at
the current input position: `" objects:"`, one or more spaces, one or more
digits, `"% ("`, the captured digit runs and the closing pieces. Each
character class is followed by a character outside the class, so the greedy
maximal-run reading below coincides with the behaviour of the regex engine. -/
def matchTail (kind : String) (cs : List Char) : Option (String × List Char × List Char) :=
  match stripLit (" objects:").toList cs with
  | none => none
  | some cs =>
    let sp := cs.takeWhile isSpaceCh
    if sp.isEmpty then none else
    let cs := cs.dropWhile isSpaceCh
    let pct := cs.takeWhile isDigitCh
    if pct.isEmpty then none else
    let cs := cs.dropWhile isDigitCh
    match stripLit ("% (").toList cs with
    | none => none
    | some cs =>
      let cur := cs.takeWhile isDigitCh
      if cur.isEmpty then none else
      let cs := cs.dropWhile isDigitCh
      match stripLit ("/").toList cs with
      | none => none
      | some cs =>
        let tot := cs.takeWhile isDigitCh
        if tot.isEmpty then none else
        let cs := cs.dropWhile isDigitCh
        match stripLit (")").toList cs with
        | none => none
        | some _ => some (kind, cur, tot)

/-- Try the whole pattern at the current position. The two alternatives
`Counting` and `Compressing` diverge at their third character, so committing
to whichever literal matches is equivalent to the ordered regex
alternation. -/
def matchAt (cs : List Char) : Option (String × List Char × List Char) :=
  match stripLit ("Counting").toList cs with
  | some rest => matchTail ("Counting") rest
  | none =>
    match stripLit ("Compressing").toList cs with
    | some rest => matchTail ("Compressing") rest
    | none => none

/-- Leftmost match: `Regex::captures` scans for the first position where the
pattern matches. Returns the capture groups: the category literal and the
two captured digit runs (current, total). -/
def findCaptures : List Char → Option (String × List Char × List Char)
  | [] => none
  | c :: cs =>
    match matchAt (c :: cs) with
    | some r => some r
    | none => findCaptures cs

/-- Numeric value of a digit run. -/
def natOfDigits (ds : List Char) : Nat :=
  ds.foldl (fun acc c => acc * 10 + (c.toNat - 0x30)) 0

/-- One more than the largest `usize` value (64-bit platform). -/
def USIZE : Nat := 2 ^ 64

/-- `str::parse::<usize>` on a captured group: the group is a nonempty digit
run, so the parse fails exactly when the value overflows `usize`. -/
def parseUsize (ds : List Char) : Option Nat :=
  if ds.isEmpty then none
  else if ds.all isDigitCh then
    if natOfDigits ds < USIZE then some (natOfDigits ds) else none
  else none

/-- `parse_sideband_progress` from `src/git/remote.rs`: decode the line as
UTF-8, search for the progress pattern, and return the category together
with both captured numbers, each parsed with `.parse().unwrap_or(0)`.
Any line that is not valid UTF-8 or has no match yields `none`. -/
def parse_sideband_progress (line : List Nat) : Option (String × Nat × Nat) :=
  match utf8Decode line with
  | some cs =>
    match findCaptures cs with
    | some (kind, cur, tot) =>
      some (kind, (parseUsize cur).getD 0, (parseUsize tot).getD 0)
    | none => none
  | none => none

/-- State threaded through `RemoteOpts::callbacks`: the shared aggregator
`State` plus the `stdout` capture buffer of `RemoteOpts`. -/
structure CallbackSt where
  state : State
  stdout : List Nat
deriving DecidableEq

/-- The `sideband_progress` closure of `RemoteOpts::callbacks`: parse the
line; on a match, store into the matching category (`Counting` → `count`,
`Compressing` → `compress`, anything else ignored), set the bar message to
the category name and run `state.update()`; otherwise append the raw bytes
to `stdout`. The returned `Bool` is the return value of the closure (always
`true`). -/
def sidebandStep (cb : CallbackSt) (line : List Nat) : CallbackSt × Bool :=
  match parse_sideband_progress line with
  | some (kind, current, total) =>
    let s := cb.state
    let s :=
      if kind = ("Counting") then s.store .count current total
      else if kind = ("Compressing") then s.store .compress current total
      else s
    let s := { s with bar := s.bar.setMessage kind }
    ({ cb with state := s.update }, true)
  | none => ({ cb with stdout := cb.stdout ++ line }, true)

/-- The `pack_progress` closure: set the bar message to `"Packing"`, store
the delivered pair into the `pack` category, run `state.update()`. -/
def packStep (cb : CallbackSt) (current total : Nat) : CallbackSt :=
  let s := { cb.state with bar := cb.state.bar.setMessage ("Packing") }
  let s := s.store .pack current total
  { cb with state := s.update }

/-- The `push_transfer_progress` closure: set the bar message to
`"Pushing"`, store into the `push` category, run `state.update()`. -/
def pushStep (cb : CallbackSt) (current total : Nat) : CallbackSt :=
  let s := { cb.state with bar := cb.state.bar.setMessage ("Pushing") }
  let s := s.store .push current total
  { cb with state := s.update }

/-- One transport callback invocation, as delivered by libgit2 during a
remote operation: a sideband text line, a pack-progress sample (with its
stage, unused by the code), or a push-transfer sample (with its byte count,
unused by the code). -/
inductive Event where
  | sideband (line : List Nat)
  | packProgress (stage current total : Nat)
  | pushTransfer (current total bytes : Nat)
deriving DecidableEq

def handleEvent (cb : CallbackSt) (e : Event) : CallbackSt :=
  match e with
  | .sideband line => (sidebandStep cb line).1
  | .packProgress _ current total => packStep cb current total
  | .pushTransfer current total _ => pushStep cb current total

/-- Run the registered callbacks over a sequence of transport events. -/
def runCallbacks (cb : CallbackSt) (events : List Event) : CallbackSt :=
  events.foldl handleEvent cb

/-- `RemoteOpts` from `src/git/remote.rs`: the captured `stdout` bytes and
the progress bar. -/
structure RemoteOpts where
  stdout : List Nat
  bar : Bar
deriving DecidableEq

/-- `RemoteOpts::default()`: empty capture buffer, fresh spinner. -/
def RemoteOpts.dflt : RemoteOpts := { stdout := [], bar := Bar.newSpinner }

/-- `Reply` from `src/git/remote.rs`. -/
structure Reply where
  stdout : List Nat
deriving DecidableEq

/-- `RemoteOpts::into_reply`: `bar.finish_and_clear()` then hand back the
captured bytes. The final widget state is returned alongside so that the
clearing effect stays observable in the embedding. -/
def RemoteOpts.intoReply (o : RemoteOpts) : Reply × Bar :=
  ({ stdout := o.stdout }, o.bar.finishAndClear)

/-- Error codes of the `git2` collaborator (`git2::ErrorCode`). -/
inductive ErrorCode where
  | GenericError
  | NotFound
  | Exists
  | Ambiguous
  | BufSize
  | User
  | BareRepo
  | UnbornBranch
  | Unmerged
  | NotFastForward
  | InvalidSpec
  | Conflict
  | Locked
  | Modified
  | Auth
  | Certificate
  | Applied
  | Peel
  | Eof
  | Invalid
  | Uncommitted
  | Directory
  | MergeConflict
  | HashsumMismatch
  | IndexDirty
  | ApplyFail
  | Owner
deriving DecidableEq

/-- Error classes of the `git2` collaborator (`git2::ErrorClass`). -/
inductive ErrorClass where
  | NoneClass
  | NoMemory
  | Os
  | Invalid
  | Reference
  | Zlib
  | Repository
  | Config
  | Regex
  | Odb
  | Index
  | Object
  | Net
  | Tag
  | Tree
  | Indexer
  | Ssl
  | Submodule
  | Thread
  | Stash
  | Checkout
  | FetchClass
  | Http
deriving DecidableEq

/-- A `git2::Error`, as far as the adapters observe it: its code and class. -/
structure GitError where
  code : ErrorCode
  cls : ErrorClass
deriving DecidableEq

/-- One remote operation driver, the shared shape of `Remote::fetch`,
`Remote::push` and `Remote::connect` in `src/git/remote.rs`: register the
callbacks, run the blocking transport call (modelled by the events it
delivers and its final result), and on success return `opts.into_reply()`.
On failure the `?` operator propagates the error and `into_reply` never
runs. The returned `Bar` is the final widget state on either path. -/
def remoteOp (opts : RemoteOpts) (events : List Event)
    (transport : Except GitError Unit) : Except GitError Reply × Bar :=
  let cb := runCallbacks { state := State.new opts.bar, stdout := opts.stdout } events
  let o : RemoteOpts := { stdout := cb.stdout, bar := cb.state.bar }
  match transport with
  | .ok _ =>
    let r := o.intoReply
    (.ok r.1, r.2)
  | .error e => (.error e, o.bar)

def Remote.fetch (opts : RemoteOpts) (events : List Event)
    (transport : Except GitError Unit) : Except GitError Reply × Bar :=
  remoteOp opts events transport

def Remote.push (opts : RemoteOpts) (events : List Event)
    (transport : Except GitError Unit) : Except GitError Reply × Bar :=
  remoteOp opts events transport

def Remote.connect (opts : RemoteOpts) (events : List Event)
    (transport : Except GitError Unit) : Except GitError Reply × Bar :=
  remoteOp opts events transport

/-- The `Optional` adapter from `src/git/mod.rs`: `Ok(v) ↦ Ok(Some(v))`;
an error with code `NotFound` and class `Config` or `Reference` becomes
`Ok(None)`; every other error is returned unchanged. -/
def Optional.optional {α : Type} (r : Except GitError α) : Except GitError (Option α) :=
  match r with
  | .ok v => .ok (some v)
  | .error e =>
    if e.code = ErrorCode.NotFound ∧
        (e.cls = ErrorClass.Config ∨ e.cls = ErrorClass.Reference) then
      .ok none
    else .error e

/-- `CheckoutError` as consumed by `try_checkout` in `src/cmd/checkout.rs`:
a `Conflict` carrying conflict information, or a wrapped `git2` error.
(The enum itself lives in the repository module; its two variants and their
payload shapes are exactly those the `match` in `try_checkout` consumes.) -/
inductive CheckoutError where
  | Conflict (paths : List String)
  | Git (e : GitError)
deriving DecidableEq

/-- `try_checkout` from `src/cmd/checkout.rs`, as a function of the result
of `repo.checkout(reference)`: success maps to `Ok(true)`, a conflict to
`Ok(false)`, and any other error is propagated. -/
def try_checkout (r : Except CheckoutError Unit) : Except GitError Bool :=
  match r with
  | .ok _ => .ok true
  | .error (.Conflict _) => .ok false
  | .error (.Git e) => .error e

/-- I/O error kinds relevant to `src/cmd/list.rs` (`std::io::ErrorKind`). -/
inductive IOErrorKind where
  | BrokenPipe
  | NotFound
  | PermissionDenied
  | WouldBlock
  | TimedOut
  | Interrupted
  | WriteZero
  | Other
deriving DecidableEq

/-- The write-error handling of `_run` in `src/cmd/list.rs`, as a function
of the outcome of the `writeln!` to stdout in each iteration: on `Err(e)` with
`e.kind() == BrokenPipe` the function returns `Ok(())` immediately; on any
other `Err` the error is not returned — the body falls through and the loop
continues; when the loop ends the function returns `Ok(())`. -/
def listRunWrites : List (Except IOErrorKind Unit) → Except IOErrorKind Unit
  | [] => .ok ()
  | w :: rest =>
    match w with
    | .ok _ => listRunWrites rest
    | .error e =>
      if e = IOErrorKind.BrokenPipe then .ok () else listRunWrites rest

/-- ASCII/UTF-8 bytes of a string, for writing concrete sideband lines. -/
def bytes (s : String) : List Nat := s.toList.map Char.toNat

instance exceptDecEq {ε α : Type} [DecidableEq ε] [DecidableEq α] :
    DecidableEq (Except ε α) := fun x y =>
  match x, y with
  | .ok a, .ok b => decidable_of_iff (a = b) (by simp)
  | .ok _, .error _ => isFalse (by simp)
  | .error _, .ok _ => isFalse (by simp)
  | .error e1, .error e2 => decidable_of_iff (e1 = e2) (by simp)

/-- A sequence of category updates as delivered by the callback closures:
each entry is `(category, current, total)` and is executed as
`State.store`, the shared store pattern of the three closures. -/
def applyUpdates (s : State) (us : List (Cat × Nat × Nat)) : State :=
  us.foldl (fun s u => s.store u.1 u.2.1 u.2.2) s

/-- The latest `(current, total)` pair delivered for a category in a
sequence of updates, `(0, 0)` when the category never got one (the value a
fresh `Progress::default()` holds). -/
def latestStored (us : List (Cat × Nat × Nat)) (c : Cat) : Nat × Nat :=
  us.foldl (fun acc u => if u.1 = c then (u.2.1, u.2.2) else acc) (0, 0)

/-- Componentwise order on the counters of a category: the second pair is at
least the first in both `current` and `total`. -/
def progLE (p q : Progress) : Prop := p.current ≤ q.current ∧ p.total ≤ q.total

instance progLE.decidable : DecidableRel progLE := fun p q =>
  decidable_of_iff (p.current ≤ q.current ∧ p.total ≤ q.total) Iff.rfl

/-- The values delivered for one category along an update sequence, in
delivery order, as `Progress` pairs. -/
def catProgs (us : List (Cat × Nat × Nat)) (c : Cat) : List Progress :=
  (us.filter (fun u => u.1 == c)).map
    (fun u => { total := u.2.2, current := u.2.1 })

/-- The transport reports monotonically: within each category, every later
delivered pair dominates every earlier one componentwise. -/
def MonotoneUpdates (us : List (Cat × Nat × Nat)) : Prop :=
  ∀ c, (catProgs us c).Pairwise progLE

lemma store_cat_eq (s : State) (c c2 : Cat) (cur tot : Nat) :
    (s.store c cur tot).cat c2 =
      if c = c2 then { total := tot, current := cur } else s.cat c2 := by
  cases c <;> cases c2 <;> simp [State.store, State.cat]

lemma store_bar_eq (s : State) (c : Cat) (cur tot : Nat) :
    (s.store c cur tot).bar = s.bar := by
  cases c <;> simp [State.store]

lemma new_cat_eq (b : Bar) (c : Cat) : (State.new b).cat c = Progress.dflt := by
  cases c <;> rfl

lemma applyUpdates_cat (us : List (Cat × Nat × Nat)) :
    ∀ (s : State) (c : Cat),
      (applyUpdates s us).cat c =
        us.foldl
          (fun acc u =>
            if u.1 = c then ({ total := u.2.2, current := u.2.1 } : Progress) else acc)
          (s.cat c) := by
  induction us with
  | nil => intro s c; rfl
  | cons u rest ih =>
    intro s c
    have h1 : applyUpdates s (u :: rest) = applyUpdates (s.store u.1 u.2.1 u.2.2) rest := rfl
    rw [h1, ih, List.foldl_cons, store_cat_eq]

lemma foldl_progress_pair (c : Cat) (us : List (Cat × Nat × Nat)) :
    ∀ (p : Nat × Nat),
      us.foldl
        (fun acc u =>
          if u.1 = c then ({ total := u.2.2, current := u.2.1 } : Progress) else acc)
        { total := p.2, current := p.1 } =
      { total := (us.foldl (fun acc u => if u.1 = c then (u.2.1, u.2.2) else acc) p).2,
        current := (us.foldl (fun acc u => if u.1 = c then (u.2.1, u.2.2) else acc) p).1 } := by
  induction us with
  | nil => intro p; rfl
  | cons u rest ih =>
    intro p
    by_cases h : u.1 = c
    · simp only [List.foldl_cons, if_pos h]
      exact ih (u.2.1, u.2.2)
    · simp only [List.foldl_cons, if_neg h]
      exact ih p

/-- The stored counters of a category after a sequence of updates are
exactly the latest delivered pair for that category. -/
lemma stored_eq_latest (b : Bar) (us : List (Cat × Nat × Nat)) (c : Cat) :
    (applyUpdates (State.new b) us).cat c =
      { total := (latestStored us c).2, current := (latestStored us c).1 } := by
  rw [applyUpdates_cat, new_cat_eq]
  exact foldl_progress_pair c us (0, 0)

lemma progress_components (s : State) :
    s.progress =
      (s.pack.current + s.push.current + s.count.current + s.compress.current,
       s.pack.total + s.push.total + s.count.total + s.compress.total) := by
  simp only [State.progress, List.foldl_cons, List.foldl_nil, Prod.mk.injEq]
  omega

lemma progress_formula (b : Bar) (us : List (Cat × Nat × Nat)) :
    (applyUpdates (State.new b) us).progress =
      ((latestStored us Cat.pack).1 + (latestStored us Cat.push).1 +
        (latestStored us Cat.count).1 + (latestStored us Cat.compress).1,
       (latestStored us Cat.pack).2 + (latestStored us Cat.push).2 +
        (latestStored us Cat.count).2 + (latestStored us Cat.compress).2) := by
  rw [progress_components]
  have hp := stored_eq_latest b us Cat.pack
  have hu := stored_eq_latest b us Cat.push
  have hc := stored_eq_latest b us Cat.count
  have hm := stored_eq_latest b us Cat.compress
  simp only [State.cat] at hp hu hc hm
  rw [hp, hu, hc, hm]

/-- C1: over any sequence of progress updates to the four categories, the
aggregate `(current, total)` computed by `State::progress` is the
componentwise sum of the latest value stored per category, and therefore
depends only on those per-category latest values — any interleaving with
the same per-category latest values yields the same aggregate. -/
theorem progress_sums_latest_per_category (b b2 : Bar) (us : List (Cat × Nat × Nat)) :
    (applyUpdates (State.new b) us).progress =
      ((latestStored us Cat.pack).1 + (latestStored us Cat.push).1 +
        (latestStored us Cat.count).1 + (latestStored us Cat.compress).1,
       (latestStored us Cat.pack).2 + (latestStored us Cat.push).2 +
        (latestStored us Cat.count).2 + (latestStored us Cat.compress).2) ∧
    (∀ vs : List (Cat × Nat × Nat),
      (∀ c : Cat, latestStored vs c = latestStored us c) →
      (applyUpdates (State.new b2) vs).progress =
        (applyUpdates (State.new b) us).progress) := by
  refine ⟨progress_formula b us, ?_⟩
  intro vs h
  rw [progress_formula, progress_formula, h Cat.pack, h Cat.push, h Cat.count, h Cat.compress]

lemma progLE_refl (p : Progress) : progLE p p := ⟨le_refl _, le_refl _⟩

lemma progLE_dflt (p : Progress) : progLE Progress.dflt p :=
  ⟨Nat.zero_le _, Nat.zero_le _⟩

lemma getLastD_concat_eq {α : Type} (l : List α) (a d : α) :
    (l ++ [a]).getLastD d = a := by
  induction l generalizing d with
  | nil => rfl
  | cons x xs ih => rw [List.cons_append, List.getLastD_cons, ih]

lemma getLastD_mem {α : Type} (l : List α) (d : α) :
    l = [] ∨ l.getLastD d ∈ l := by
  induction l generalizing d with
  | nil => exact Or.inl rfl
  | cons x xs ih =>
    right
    rw [List.getLastD_cons]
    rcases ih x with h | h
    · subst h; exact List.mem_singleton.mpr rfl
    · exact List.mem_cons_of_mem _ h

lemma foldl_latest_getLastD (c : Cat) (us : List (Cat × Nat × Nat)) :
    ∀ (a : Progress),
      us.foldl
        (fun acc u =>
          if u.1 = c then ({ total := u.2.2, current := u.2.1 } : Progress) else acc)
        a = (catProgs us c).getLastD a := by
  induction us with
  | nil => intro a; rfl
  | cons u rest ih =>
    intro a
    by_cases h : u.1 = c
    · simp only [List.foldl_cons, if_pos h, catProgs, List.filter_cons,
        beq_iff_eq, h, if_pos trivial, List.map_cons, List.getLastD_cons]
      exact ih _
    · simp only [List.foldl_cons, if_neg h, catProgs, List.filter_cons, beq_iff_eq, h]
      exact ih a

/-- Stored counters after an update sequence, as the last element of the
per-category delivery list. -/
lemma stored_eq_getLastD (b : Bar) (us : List (Cat × Nat × Nat)) (c : Cat) :
    (applyUpdates (State.new b) us).cat c = (catProgs us c).getLastD Progress.dflt := by
  rw [applyUpdates_cat, new_cat_eq, foldl_latest_getLastD]

lemma catProgs_append (l1 l2 : List (Cat × Nat × Nat)) (c : Cat) :
    catProgs (l1 ++ l2) c = catProgs l1 c ++ catProgs l2 c := by
  simp [catProgs, List.filter_append]

lemma catProgs_sublist (l1 l2 : List (Cat × Nat × Nat)) (c : Cat)
    (h : List.Sublist l1 l2) : List.Sublist (catProgs l1 c) (catProgs l2 c) :=
  (h.filter _).map _

/-- C6 (amended): each callback update replaces the stored pair of its
category with the delivered values; when the deliveries of the transport are
per-category monotone (the assumption the spec states), every reachable
reachable state stores counters dominating the previously stored ones. -/
theorem stored_monotone_of_monotone_updates (b : Bar)
    (us : List (Cat × Nat × Nat)) (h : MonotoneUpdates us) (c : Cat) (k : Nat) :
    progLE ((applyUpdates (State.new b) (us.take k)).cat c)
      ((applyUpdates (State.new b) (us.take (k + 1))).cat c) := by
  rw [stored_eq_getLastD, stored_eq_getLastD, List.take_succ]
  cases hk : us[k]? with
  | none => simp [progLE_refl]
  | some u =>
    by_cases hc : u.1 = c
    · have hcat : catProgs (us.take k ++ [u]) c =
          catProgs (us.take k) c ++ [{ total := u.2.2, current := u.2.1 }] := by
        rw [catProgs_append]
        simp [catProgs, List.filter_cons, hc]
      rw [Option.toList_some, hcat, getLastD_concat_eq]
      rcases getLastD_mem (catProgs (us.take k) c) Progress.dflt with hnil | hmem
      · rw [hnil]
        exact progLE_dflt _
      · have hsub : List.Sublist (catProgs (us.take k ++ [u]) c) (catProgs us c) := by
          apply catProgs_sublist
          have : us.take k ++ [u] = us.take (k + 1) := by
            rw [List.take_succ, hk, Option.toList_some]
          rw [this]
          exact List.take_sublist _ _
        have hpair := (h c).sublist hsub
        rw [hcat] at hpair
        exact ((List.pairwise_append.mp hpair).2.2 _ hmem _ (List.mem_singleton.mpr rfl))
    · have hcat : catProgs (us.take k ++ [u]) c = catProgs (us.take k) c ++ [] := by
        rw [catProgs_append]
        simp [catProgs, List.filter_cons, hc]
      rw [Option.toList_some, hcat, List.append_nil]
      exact progLE_refl _

/-- Witness for C1: two interleavings with the same per-category latest
values produce the same aggregate. -/
theorem progress_sums_latest_per_category_witness :
    (applyUpdates (State.new Bar.newSpinner)
        [(Cat.pack, 3, 4), (Cat.count, 1, 2), (Cat.count, 5, 6)]).progress =
      (applyUpdates (State.new Bar.newSpinner)
        [(Cat.count, 1, 2), (Cat.pack, 3, 4), (Cat.count, 5, 6)]).progress :=
  (progress_sums_latest_per_category Bar.newSpinner Bar.newSpinner
      [(Cat.count, 1, 2), (Cat.pack, 3, 4), (Cat.count, 5, 6)]).2
    [(Cat.pack, 3, 4), (Cat.count, 1, 2), (Cat.count, 5, 6)]
    (by intro c; cases c <;> rfl)

/-- Witness for C6 (amended): with monotone deliveries to `count`, the
stored pair after the second update dominates the one after the first. -/
theorem stored_monotone_of_monotone_updates_witness :
    progLE
      ((applyUpdates (State.new Bar.newSpinner)
        ([(Cat.count, 1, 10), (Cat.count, 5, 10)].take 1)).cat Cat.count)
      ((applyUpdates (State.new Bar.newSpinner)
        ([(Cat.count, 1, 10), (Cat.count, 5, 10)].take 2)).cat Cat.count) :=
  stored_monotone_of_monotone_updates Bar.newSpinner
    [(Cat.count, 1, 10), (Cat.count, 5, 10)]
    (by intro c; cases c <;> decide) Cat.count 1

/-- Counterexample for C6 as stated: the callbacks store with
replace-with-latest, so a sideband sequence whose second `Counting` report
is smaller than the first leaves the `count` category with a smaller
`current` — the stored values are not monotonically non-decreasing for
every callback sequence. -/
theorem stored_not_monotone_counterexample :
    ¬ progLE
      ((sidebandStep { state := State.new Bar.newSpinner, stdout := [] }
        (bytes ("Counting objects: 50% (5/10)"))).1.state.count)
      ((sidebandStep (sidebandStep { state := State.new Bar.newSpinner, stdout := [] }
        (bytes ("Counting objects: 50% (5/10)"))).1
        (bytes ("Counting objects: 30% (3/10)"))).1.state.count) := by decide

/-- C2: feeding the four recognized sideband lines into a fresh aggregator
yields `count = (5, 10)`, `compress = (4, 4)` and aggregate `(9, 14)`;
each update replaced the previous value of its category. -/
theorem sideband_sequence_final_aggregate :
    (([bytes ("Counting objects: 10% (1/10)"), bytes ("Counting objects: 50% (5/10)"),
        bytes ("Compressing objects: 50% (2/4)"), bytes ("Compressing objects: 100% (4/4)")].foldl
        (fun cb l => (sidebandStep cb l).1)
        { state := State.new Bar.newSpinner, stdout := [] }).state.count =
      { total := 10, current := 5 }) ∧
    (([bytes ("Counting objects: 10% (1/10)"), bytes ("Counting objects: 50% (5/10)"),
        bytes ("Compressing objects: 50% (2/4)"), bytes ("Compressing objects: 100% (4/4)")].foldl
        (fun cb l => (sidebandStep cb l).1)
        { state := State.new Bar.newSpinner, stdout := [] }).state.compress =
      { total := 4, current := 4 }) ∧
    (([bytes ("Counting objects: 10% (1/10)"), bytes ("Counting objects: 50% (5/10)"),
        bytes ("Compressing objects: 50% (2/4)"), bytes ("Compressing objects: 100% (4/4)")].foldl
        (fun cb l => (sidebandStep cb l).1)
        { state := State.new Bar.newSpinner, stdout := [] }).state.progress =
      (9, 14)) := by decide

/-- C3: the sideband line `"Counting objects: 42% (21/50)"` sets the
`count` category to `(current, total) = (21, 50)` and leaves `compress`,
`pack` and `push` untouched, whatever the aggregator state was before. -/
theorem sideband_counting_frame (cb : CallbackSt) :
    ((sidebandStep cb (bytes ("Counting objects: 42% (21/50)"))).1.state.count =
      { total := 50, current := 21 }) ∧
    ((sidebandStep cb (bytes ("Counting objects: 42% (21/50)"))).1.state.compress =
      cb.state.compress) ∧
    ((sidebandStep cb (bytes ("Counting objects: 42% (21/50)"))).1.state.pack =
      cb.state.pack) ∧
    ((sidebandStep cb (bytes ("Counting objects: 42% (21/50)"))).1.state.push =
      cb.state.push) := by
  have h : parse_sideband_progress (bytes ("Counting objects: 42% (21/50)")) =
      some (("Counting"), 21, 50) := by decide
  simp [sidebandStep, h, State.update, State.store, Bar.setMessage, Bar.setLength,
    Bar.setPosition, Bar.tick]

/-- C4: a sideband line the parser does not recognize is appended verbatim
to the capture buffer that `into_reply` hands back as `Reply.stdout`; no
progress category (indeed nothing in the aggregator state) changes, and the
closure still returns `true` — there is no error path. -/
theorem sideband_nonmatching_captured (cb : CallbackSt) (b : Bar) (line : List Nat)
    (h : parse_sideband_progress line = none) :
    ((sidebandStep cb line).1.state = cb.state) ∧
    ((sidebandStep cb line).1.stdout = cb.stdout ++ line) ∧
    ((sidebandStep cb line).2 = true) ∧
    ((RemoteOpts.intoReply
        { stdout := (sidebandStep cb line).1.stdout, bar := b }).1 =
      { stdout := cb.stdout ++ line }) := by
  simp [sidebandStep, h, RemoteOpts.intoReply]

/-- Witness for C4 at the line `"remote: hello"`. -/
theorem sideband_nonmatching_captured_witness :
    (((sidebandStep { state := State.new Bar.newSpinner, stdout := [] }
        (bytes ("remote: hello"))).1.state = State.new Bar.newSpinner) ∧
    ((sidebandStep { state := State.new Bar.newSpinner, stdout := [] }
        (bytes ("remote: hello"))).1.stdout = [] ++ bytes ("remote: hello")) ∧
    ((sidebandStep { state := State.new Bar.newSpinner, stdout := [] }
        (bytes ("remote: hello"))).2 = true) ∧
    ((RemoteOpts.intoReply
        { stdout := (sidebandStep { state := State.new Bar.newSpinner, stdout := [] }
            (bytes ("remote: hello"))).1.stdout, bar := Bar.newSpinner }).1 =
      { stdout := [] ++ bytes ("remote: hello") })) :=
  sideband_nonmatching_captured
    { state := State.new Bar.newSpinner, stdout := [] } Bar.newSpinner
    (bytes ("remote: hello")) (by decide)

lemma update_bar_cleared (s : State) : (State.update s).bar.cleared = s.bar.cleared := by
  simp [State.update, Bar.setLength, Bar.setPosition, Bar.tick]

lemma sidebandStep_cleared (cb : CallbackSt) (line : List Nat) :
    (sidebandStep cb line).1.state.bar.cleared = cb.state.bar.cleared := by
  cases h : parse_sideband_progress line with
  | none => simp [sidebandStep, h]
  | some v =>
    obtain ⟨kind, current, total⟩ := v
    simp only [sidebandStep, h, update_bar_cleared]
    split_ifs <;> simp [store_bar_eq, Bar.setMessage]

lemma handleEvent_cleared (cb : CallbackSt) (e : Event) :
    (handleEvent cb e).state.bar.cleared = cb.state.bar.cleared := by
  cases e with
  | sideband line => exact sidebandStep_cleared cb line
  | packProgress stage current total =>
    simp [handleEvent, packStep, update_bar_cleared, store_bar_eq, Bar.setMessage]
  | pushTransfer current total b =>
    simp [handleEvent, pushStep, update_bar_cleared, store_bar_eq, Bar.setMessage]

lemma runCallbacks_cleared (events : List Event) :
    ∀ cb : CallbackSt,
      (runCallbacks cb events).state.bar.cleared = cb.state.bar.cleared := by
  induction events with
  | nil => intro cb; rfl
  | cons e rest ih =>
    intro cb
    have h1 : runCallbacks cb (e :: rest) = runCallbacks (handleEvent cb e) rest := rfl
    rw [h1, ih, handleEvent_cleared]

/-- C5 (amended): for each of `fetch`, `push` and `connect`, the success
path runs `into_reply`, so the widget ends cleared and the `Reply` carries
the captured bytes; the failure path propagates the transport error
unchanged but returns before `into_reply`, so `finish_and_clear` is never
invoked and the cleared flag of the widget stays whatever it was initially. -/
theorem remote_ops_completion (opts : RemoteOpts) (events : List Event)
    (err : GitError) :
    ((Remote.fetch opts events (Except.ok ())).2.cleared = true) ∧
    ((Remote.fetch opts events (Except.ok ())).1 =
      Except.ok { stdout := (runCallbacks
        { state := State.new opts.bar, stdout := opts.stdout } events).stdout }) ∧
    ((Remote.fetch opts events (Except.error err)).1 = Except.error err) ∧
    ((Remote.fetch opts events (Except.error err)).2.cleared = opts.bar.cleared) ∧
    ((Remote.push opts events (Except.ok ())).2.cleared = true) ∧
    ((Remote.push opts events (Except.error err)).1 = Except.error err) ∧
    ((Remote.push opts events (Except.error err)).2.cleared = opts.bar.cleared) ∧
    ((Remote.connect opts events (Except.ok ())).2.cleared = true) ∧
    ((Remote.connect opts events (Except.error err)).1 = Except.error err) ∧
    ((Remote.connect opts events (Except.error err)).2.cleared = opts.bar.cleared) := by
  have hclear : (runCallbacks { state := State.new opts.bar, stdout := opts.stdout }
      events).state.bar.cleared = opts.bar.cleared :=
    runCallbacks_cleared events _
  refine ⟨rfl, rfl, rfl, ?_, rfl, rfl, ?_, rfl, rfl, ?_⟩ <;>
    simpa [Remote.fetch, Remote.push, Remote.connect, remoteOp] using hclear

/-- Counterexample for C5 as stated: after partial progress, a failing
transport leaves the widget uncleared — the error propagates but
`finish_and_clear` never ran, contradicting the claim that both completion
paths clear the widget. -/
theorem remote_failure_uncleared_counterexample :
    ((Remote.fetch RemoteOpts.dflt
        [Event.sideband (bytes ("Counting objects: 50% (5/10)"))]
        (Except.error { code := ErrorCode.GenericError, cls := ErrorClass.Net })).1 =
      Except.error { code := ErrorCode.GenericError, cls := ErrorClass.Net }) ∧
    ((Remote.fetch RemoteOpts.dflt
        [Event.sideband (bytes ("Counting objects: 50% (5/10)"))]
        (Except.error { code := ErrorCode.GenericError, cls := ErrorClass.Net })).2.cleared =
      false) := by decide

/-- C7: the `Optional` adapter maps `Ok(v)` to `Ok(Some(v))`, maps an error
with code `NotFound` and class `Config` or `Reference` to `Ok(None)`, and
returns every other error unchanged. -/
theorem optional_adapter_spec (α : Type) (v : α) (e : GitError) :
    (Optional.optional (Except.ok v : Except GitError α) = Except.ok (some v)) ∧
    ((e.code = ErrorCode.NotFound ∧
        (e.cls = ErrorClass.Config ∨ e.cls = ErrorClass.Reference)) →
      Optional.optional (Except.error e : Except GitError α) = Except.ok none) ∧
    (¬ (e.code = ErrorCode.NotFound ∧
        (e.cls = ErrorClass.Config ∨ e.cls = ErrorClass.Reference)) →
      Optional.optional (Except.error e : Except GitError α) = Except.error e) := by
  refine ⟨rfl, ?_, ?_⟩ <;> intro h <;> simp [Optional.optional, h]

/-- Witness for C7 at a reference-lookup `NotFound` error and an unrelated
authentication error. -/
theorem optional_adapter_spec_witness :
    (Optional.optional (Except.ok 7 : Except GitError Nat) = Except.ok (some 7)) ∧
    (Optional.optional
        (Except.error { code := ErrorCode.NotFound, cls := ErrorClass.Reference } :
          Except GitError Nat) = Except.ok none) ∧
    (Optional.optional
        (Except.error { code := ErrorCode.Auth, cls := ErrorClass.Net } :
          Except GitError Nat) =
      Except.error { code := ErrorCode.Auth, cls := ErrorClass.Net }) :=
  ⟨(optional_adapter_spec Nat 7 { code := ErrorCode.Auth, cls := ErrorClass.Net }).1,
   (optional_adapter_spec Nat 7
      { code := ErrorCode.NotFound, cls := ErrorClass.Reference }).2.1 (by decide),
   (optional_adapter_spec Nat 7
      { code := ErrorCode.Auth, cls := ErrorClass.Net }).2.2 (by decide)⟩

/-- C8: `try_checkout` maps a successful checkout to `Ok(true)`, a conflict
to `Ok(false)`, and any other checkout failure to the underlying error. -/
theorem try_checkout_spec (e : GitError) (paths : List String) :
    (try_checkout (Except.ok ()) = Except.ok true) ∧
    (try_checkout (Except.error (CheckoutError.Conflict paths)) = Except.ok false) ∧
    (try_checkout (Except.error (CheckoutError.Git e)) = Except.error e) :=
  ⟨rfl, rfl, rfl⟩

/-- C9 (amended): the write handling of `_run` returns success immediately on a
broken pipe, ignores every other write failure and keeps iterating, and so
returns success for every sequence of write outcomes — no write error is
ever propagated to the caller. -/
theorem listRunWrites_never_propagates (ws : List (Except IOErrorKind Unit)) :
    listRunWrites ws = Except.ok () := by
  induction ws with
  | nil => rfl
  | cons w rest ih =>
    cases w with
    | ok u => simpa [listRunWrites] using ih
    | error e =>
      by_cases h : e = IOErrorKind.BrokenPipe <;> simp [listRunWrites, h, ih]

/-- Counterexample for C9 as stated: a write failure other than broken pipe
(here `PermissionDenied`) does not propagate — the loop falls through and
the function still returns success. -/
theorem listRunWrites_other_error_swallowed_counterexample :
    (listRunWrites [Except.error IOErrorKind.PermissionDenied] = Except.ok ()) ∧
    (IOErrorKind.PermissionDenied ≠ IOErrorKind.BrokenPipe) := by decide

/-- C10: `parse_sideband_progress` yields `none` on a line that is not
valid UTF-8 or has no match for the progress pattern; on a matching line, a
captured numeric field whose value does not fit in `usize` is reported as
`0` rather than making the parse fail. -/
theorem parse_sideband_progress_spec (line : List Nat) :
    (utf8Decode line = none → parse_sideband_progress line = none) ∧
    (∀ cs, utf8Decode line = some cs → findCaptures cs = none →
      parse_sideband_progress line = none) ∧
    (∀ cs kind cur tot, utf8Decode line = some cs →
      findCaptures cs = some (kind, cur, tot) → parseUsize cur = none →
      parse_sideband_progress line = some (kind, 0, (parseUsize tot).getD 0)) ∧
    (∀ cs kind cur tot, utf8Decode line = some cs →
      findCaptures cs = some (kind, cur, tot) → parseUsize tot = none →
      parse_sideband_progress line = some (kind, (parseUsize cur).getD 0, 0)) := by
  refine ⟨?_, ?_, ?_, ?_⟩ <;> intros <;> simp_all [parse_sideband_progress]

/-- Witness for C10: an invalid UTF-8 byte, an unrecognized line, and a
matching line whose `current` field overflows `usize`. -/
theorem parse_sideband_progress_spec_witness :
    (parse_sideband_progress [0xFF] = none) ∧
    (parse_sideband_progress (bytes ("remote: x")) = none) ∧
    (parse_sideband_progress
        (bytes ("Counting objects: 1% (99999999999999999999999/10)")) =
      some (("Counting"), 0, 10)) :=
  ⟨(parse_sideband_progress_spec [0xFF]).1 (by decide),
   (parse_sideband_progress_spec (bytes ("remote: x"))).2.1
     (("remote: x").toList) (by decide) (by decide),
   (parse_sideband_progress_spec
      (bytes ("Counting objects: 1% (99999999999999999999999/10)"))).2.2.1
     (("Counting objects: 1% (99999999999999999999999/10)").toList)
     (("Counting")) (("99999999999999999999999").toList) (("10").toList)
     (by decide) (by decide) (by decide)⟩

end Src
